import Mathlib

/-!
Shallow embedding of the archiva-python client (src/archiva/__init__.py and
src/archiva/logger.py), a REST client for the Archiva artifact repository.

Modelling conventions:
- HTTP traffic is modelled by passing the remote response(s) as explicit
  arguments; each operation returns the list of requests it issued.
- Decoded JSON bodies are modelled by the `Json` inductive; a response carries
  the raw body text (the document seen by the JSON decoder) and the decode
  result (`none` when `json.loads` would raise `JSONDecodeError`).
- Python exceptions are modelled by the `PyErr` error type of an `Except`.
- Logger calls made by the operations are recorded as `LogCall` events
  (the timestamp written by `Logger.log` is wall-clock time and is not
  modelled; no claim concerns it).
- Machine strings are Lean `String`s; Python `str.find` / slicing / `lower` /
  `startswith` are re-implemented below with Python's index conventions
  (negative indices count from the end, `find` returns -1 on failure).
-/

namespace Archiva

/-- JSON values as produced by Python's `json` module (objects keep field
order, as Python dicts do). -/
inductive Json where
  | null : Json
  | bool : Bool → Json
  | num : Int → Json
  | str : String → Json
  | arr : List Json → Json
  | obj : List (String × Json) → Json

/-- Key lookup in a decoded JSON object's field list (first occurrence,
matching Python dict access where keys are unique). -/
def lookupKey : List (String × Json) → String → Option Json
  | [], _ => none
  | (k, w) :: rest, key => if k = key then some w else lookupKey rest key

/-- Python `body[key]` where the code indexes a decoded JSON object (dict)
with a string key: the field's value, or `none` where Python raises KeyError.
Used only where the surrounding model has established the value is indexed as
a dict (indexing a non-dict with a string key is modelled at the use sites,
not here). -/
def Json.lookup : Json → String → Option Json
  | .obj fields, key => lookupKey fields key
  | _, _ => none

/-- Python exceptions that the modelled operations can raise. -/
inductive PyErr where
  | errorResponse (status_code : Nat) (error_messages : Json)
  | jsonDecodeError (doc : String)
  | keyError (key : String)
  | typeError
  | attributeError

/-- A call made to the session logger: `info` is a `logger.i(...)` call,
`err` is a `logger.e(...)` call (login passes decoded JSON values to it). -/
inductive LogCall where
  | info (msg : String)
  | err (msg : Json)

/-- ASCII lower-casing of one character (Python `str.lower` restricted to the
ASCII range used by this client). -/
def lowerChar (c : Char) : Char :=
  if 65 ≤ c.toNat ∧ c.toNat ≤ 90 then Char.ofNat (c.toNat + 32) else c

/-- Python `s.lower()`. -/
def pyLower (s : String) : String := String.mk (s.data.map lowerChar)

/-- Python `s.startswith(p)`. -/
def pyStartswith (s p : String) : Bool := p.data.isPrefixOf s.data

/-- `archiva.logger.Logger`: its only state is the numeric level set by the
constructor. -/
structure Logger where
  level : Nat

/-- `Logger.__init__(level)` (logger.py lines 9-26): "i" maps to 1, "w" to 2,
"s" to 4 (suppress), anything else to 3. -/
def Logger.init (level : String) : Logger :=
  if pyStartswith (pyLower level) "i" then ⟨1⟩
  else if pyStartswith (pyLower level) "w" then ⟨2⟩
  else if pyStartswith (pyLower level) "s" then ⟨4⟩
  else ⟨3⟩

/-- Whether `Logger.i` emits its message (logger.py line 50). -/
def Logger.i (l : Logger) : Bool := decide (l.level ≤ 1)

/-- Whether `Logger.w` emits its message (logger.py line 62). -/
def Logger.w (l : Logger) : Bool := decide (l.level ≤ 2)

/-- Whether `Logger.e` emits its message (logger.py line 74). -/
def Logger.e (l : Logger) : Bool := decide (l.level ≤ 3)

/-- An HTTP request as issued through the `requests` library. -/
structure Request where
  method : String
  uri : String
  headers : List (String × String)
  data : Option String

/-- An HTTP response as seen by the client: status, raw body text (the
document handed to the JSON decoder), the JSON decode result (`none` when
decoding raises), and the `Set-Cookie` header when present. -/
structure HttpResponse where
  status_code : Nat
  rawBody : String
  decoded : Option Json
  setCookie : Option String

/-- `archiva.Session` state: constructor fields plus the `session_cookie`
attribute, which does not exist until a successful login (`none` models the
absent attribute; reading it then raises `AttributeError`). -/
structure Session where
  host : String
  user : String
  password : String
  set_referer : Bool
  logger : Logger
  session_cookie : Option String

/-- Result of running one Session operation: the state after the call, the
logger calls made, the requests issued, the files written as (name, content)
pairs, and the returned value or raised exception. -/
structure OpOut (α : Type) where
  session : Session
  logs : List LogCall
  requests : List Request
  fileWrites : List (String × String)
  result : Except PyErr α

/-- Python `s.find(sub)` scanning: first index at or after the running index
where `need` occurs, else none. -/
def findSub (need : List Char) : List Char → Nat → Option Nat
  | [], idx => if need.isPrefixOf ([] : List Char) then some idx else none
  | c :: t, idx =>
    if need.isPrefixOf (c :: t) then some idx
    else findSub need t (idx + 1)

/-- Python `s.find(sub, start)`: -1 when absent; a negative `start` counts
from the end of the string (clamped at 0). -/
def pyFind (s sub : String) (start : Int) : Int :=
  let st : Nat := if start < 0 then ((s.data.length : Int) + start).toNat else start.toNat
  match findSub sub.data (s.data.drop st) 0 with
  | some i => ((st + i : Nat) : Int)
  | none => -1

/-- Normalisation of one Python slice bound: negative bounds count from the
end (clamped at 0), positive bounds are clamped at the length. -/
def sliceIndex (len : Nat) (i : Int) : Nat :=
  if i < 0 then ((len : Int) + i).toNat else min i.toNat len

/-- Python `s[a:b]`. -/
def pySlice (s : String) (a b : Int) : String :=
  let lo := sliceIndex s.data.length a
  let hi := sliceIndex s.data.length b
  String.mk ((s.data.take hi).drop lo)

/-- `Session.extract_session_cookie` (init file lines 79-83), translated
operation by operation: two `find` calls then a slice. -/
def extract_session_cookie (set_cookie_value : String) : String :=
  let start_idx := pyFind set_cookie_value "JSESSIONID" 0
  let end_idx := pyFind set_cookie_value ";" start_idx
  pySlice set_cookie_value start_idx end_idx

/-- `LoginRequest` value object. -/
structure LoginRequest where
  u : String
  p : String

/-- `LoginRequest.get_xml`: the f-string with its escaped newlines keeps the
two-tab indentation of the continuation lines. -/
def LoginRequest.get_xml (r : LoginRequest) : String :=
  "<loginRequest>\t\t<username>" ++ r.u ++ "</username>\t\t<password>" ++
    r.p ++ "</password>\t\t</loginRequest>"

/-- Optional `Referer` header: every header dict is built as a literal and
then `headers[\x22Referer\x22] = self.host` is inserted when the flag is set. -/
def withReferer (s : Session) (base : List (String × String)) : List (String × String) :=
  if s.set_referer then base ++ [("Referer", s.host)] else base

def loginUri (host : String) : String :=
  host ++ "/restServices/redbackServices/loginService/logIn"

def logoutUri (host : String) : String :=
  host ++ "/restServices/redbackServices/loginService/logout"

def versionsListUri (host g n : String) : String :=
  host ++ "/restServices/archivaServices/browseService/versionsList/" ++ g ++ "/" ++ n

def downloadInfosUri (host g n v : String) : String :=
  host ++ "/restServices/archivaServices/browseService/artifactDownloadInfos/" ++
    g ++ "/" ++ n ++ "/" ++ v

/-- Python `key in body` on a decoded JSON body: key membership for objects
(dicts), substring search for strings, element membership for arrays (a JSON
element equals the Python string `key` only when it is that string).  On the
scalar bodies null, booleans and numbers the `in` operator itself raises
TypeError (argument not iterable); `none` models that raise. -/
def pyStrIn (key : String) : Json → Option Bool
  | .obj fields => some (lookupKey fields key).isSome
  | .str s => some (findSub key.data s.data 0).isSome
  | .arr xs => some (xs.any (fun e => match e with | .str t => decide (t = key) | _ => false))
  | _ => none

/-- The `for err in body[\x22errorMessages\x22]: logger.e(err[\x22errorKey\x22])` loop:
returns the keys passed to `logger.e` in order, and whether the loop ran to
completion (`false` when an entry lacks the key, in which case the keys of the
earlier entries were already logged and a `KeyError` is raised). -/
def collectErrorKeys : List Json → List Json × Bool
  | [] => ([], true)
  | e :: rest =>
    match e.lookup "errorKey" with
    | some k =>
      let r := collectErrorKeys rest
      (k :: r.1, r.2)
    | none => ([], false)

/-- `Session.login` (init file lines 85-127) against a given response.
On non-200: decode the body, then run `if \x22errorMessages\x22 in body:`.  The
membership test itself raises TypeError on scalar bodies; when it is true,
`body[\x22errorMessages\x22]` is dict indexing for objects but raises TypeError on
string/array bodies containing the needle.  For an object's errorMessages
list the loop logs each entry's error key and ErrorResponse carries the
status and those messages (an errorMessages value that is not a JSON array
makes the for-loop or the indexing inside it raise TypeError before any key
is logged).  When the test is false, ErrorResponse carries the status and
the whole decoded body.  A decode failure on an empty document becomes
ErrorResponse(status) (empty default message list); any other decode failure
propagates.  On 200 the session cookie is extracted from Set-Cookie. -/
def login (s : Session) (res : HttpResponse) : OpOut Unit :=
  let headers := withReferer s
    [("Content-Type", "application/xml"), ("Accept", "application/json")]
  let uri := loginUri s.host
  let req : Request :=
    ⟨"POST", uri, headers, some (LoginRequest.get_xml ⟨s.user, s.password⟩)⟩
  let infoLog := [LogCall.info ("POST " ++ uri)]
  if res.status_code ≠ 200 then
    match res.decoded with
    | some body =>
      match pyStrIn "errorMessages" body with
      | some true =>
        match body with
        | Json.obj fields =>
          match lookupKey fields "errorMessages" with
          | some (Json.arr entries) =>
            let c := collectErrorKeys entries
            if c.2 then
              ⟨s, infoLog ++ c.1.map LogCall.err, [req], [],
                .error (.errorResponse res.status_code (Json.arr entries))⟩
            else
              ⟨s, infoLog ++ c.1.map LogCall.err, [req], [], .error (.keyError "errorKey")⟩
          | some _ => ⟨s, infoLog, [req], [], .error .typeError⟩
          | none => ⟨s, infoLog, [req], [], .error (.keyError "errorMessages")⟩
        | _ => ⟨s, infoLog, [req], [], .error .typeError⟩
      | some false => ⟨s, infoLog, [req], [], .error (.errorResponse res.status_code body)⟩
      | none => ⟨s, infoLog, [req], [], .error .typeError⟩
    | none =>
      if res.rawBody = "" then
        ⟨s, infoLog, [req], [], .error (.errorResponse res.status_code (Json.arr []))⟩
      else
        ⟨s, infoLog, [req], [], .error (.jsonDecodeError res.rawBody)⟩
  else
    match res.setCookie with
    | some sc =>
      ⟨{ s with session_cookie := some (extract_session_cookie sc) },
        infoLog, [req], [], .ok ()⟩
    | none => ⟨s, infoLog, [req], [], .error (.keyError "Set-Cookie")⟩

/-- `Session.logout` (init file lines 129-145): one GET with the session
cookie, no response validation, no state change.  Reading the missing
`session_cookie` attribute (never logged in) raises before any request. -/
def logout (s : Session) : OpOut Unit :=
  match s.session_cookie with
  | none => ⟨s, [], [], [], .error .attributeError⟩
  | some ck =>
    let headers := withReferer s [("Cookie", ck)]
    let uri := logoutUri s.host
    ⟨s, [LogCall.info ("GET " ++ uri)], [⟨"GET", uri, headers, none⟩], [], .ok ()⟩

/-- `Session.get_versions_list` (init file lines 147-187). -/
def get_versions_list (s : Session) (package_group package_name : String)
    (res : HttpResponse) : OpOut Json :=
  match s.session_cookie with
  | none => ⟨s, [], [], [], .error .attributeError⟩
  | some ck =>
    let headers := withReferer s [("Cookie", ck), ("Accept", "application/json")]
    let uri := versionsListUri s.host package_group package_name
    let req : Request := ⟨"GET", uri, headers, none⟩
    let infoLog := [LogCall.info ("GET " ++ uri)]
    if res.status_code = 200 then
      match res.decoded with
      | some j => ⟨s, infoLog, [req], [], .ok j⟩
      | none => ⟨s, infoLog, [req], [], .error (.jsonDecodeError res.rawBody)⟩
    else
      ⟨s, infoLog ++ [LogCall.err (Json.str ("status code: " ++ toString res.status_code))],
        [req], [], .error (.errorResponse res.status_code (Json.arr []))⟩

/-- `Session.get_download_infos` (init file lines 189-251): same 200 / error
handling as `get_versions_list`, but the header dict has no Accept entry. -/
def get_download_infos (s : Session) (package_group package_name package_version : String)
    (res : HttpResponse) : OpOut Json :=
  match s.session_cookie with
  | none => ⟨s, [], [], [], .error .attributeError⟩
  | some ck =>
    let headers := withReferer s [("Cookie", ck)]
    let uri := downloadInfosUri s.host package_group package_name package_version
    let req : Request := ⟨"GET", uri, headers, none⟩
    let infoLog := [LogCall.info ("GET " ++ uri)]
    if res.status_code = 200 then
      match res.decoded with
      | some j => ⟨s, infoLog, [req], [], .ok j⟩
      | none => ⟨s, infoLog, [req], [], .error (.jsonDecodeError res.rawBody)⟩
    else
      ⟨s, infoLog ++ [LogCall.err (Json.str ("status code: " ++ toString res.status_code))],
        [req], [], .error (.errorResponse res.status_code (Json.arr []))⟩

/-- Python return value of `Session.download`: the literal `False` when there
was no content for the coordinates, else the written filename. -/
inductive DownloadRet where
  | retFalse
  | retFilename (name : String)

/-- `Session.download` (init file lines 253-300) against the downloadInfos
response and the artifact-fetch response.  `len(...)` and `[0]` on a non-array
decoded body, or non-string url/id fields handed to `requests.get` / `open`,
raise a TypeError; a missing url or id key raises a KeyError. -/
def download (s : Session) (g n v : String) (infosRes fetchRes : HttpResponse) :
    OpOut DownloadRet :=
  let d := get_download_infos s g n v infosRes
  match d.result with
  | .error e => ⟨d.session, d.logs, d.requests, d.fileWrites, .error e⟩
  | .ok infos =>
    match infos with
    | Json.arr [] => ⟨d.session, d.logs, d.requests, [], .ok .retFalse⟩
    | Json.arr (first :: _) =>
      match first.lookup "url" with
      | none => ⟨d.session, d.logs, d.requests, [], .error (.keyError "url")⟩
      | some (Json.str url) =>
        match first.lookup "id" with
        | none => ⟨d.session, d.logs, d.requests, [], .error (.keyError "id")⟩
        | some (Json.str filename) =>
          match s.session_cookie with
          | none => ⟨d.session, d.logs, d.requests, [], .error .attributeError⟩
          | some ck =>
            let headers := withReferer s [("Cookie", ck)]
            let req2 : Request := ⟨"GET", url, headers, none⟩
            let logs2 := d.logs ++ [LogCall.info ("GET " ++ url)]
            if fetchRes.status_code = 200 then
              ⟨d.session, logs2, d.requests ++ [req2],
                [(filename, fetchRes.rawBody)], .ok (.retFilename filename)⟩
            else
              ⟨d.session,
                logs2 ++ [LogCall.err (Json.str ("status code: " ++ toString fetchRes.status_code))],
                d.requests ++ [req2], [],
                .error (.errorResponse fetchRes.status_code (Json.arr []))⟩
        | some _ => ⟨d.session, d.logs, d.requests, [], .error .typeError⟩
      | some _ => ⟨d.session, d.logs, d.requests, [], .error .typeError⟩
    | _ => ⟨d.session, d.logs, d.requests, [], .error .typeError⟩

/-- Result of running a whole `with Session(...) as s:` block: final state,
how many times `logout` (the body of `Session.__exit__`) was invoked, and the
value or exception leaving the statement. -/
structure WithOut (β : Type) where
  session : Session
  logoutCalls : Nat
  result : Except PyErr β

/-- Python `with` statement over `Session.__enter__` / `Session.__exit__`
(init file lines 70-77): enter runs `login` and yields the session; if it
raises, the block and the exit hook never run.  Otherwise the guarded block
runs and `__exit__` (which runs `logout`) is invoked on both the normal and
the exception path; since `__exit__` returns None, a block exception is then
re-raised. -/
def withSession {β : Type} (s : Session) (loginRes : HttpResponse)
    (body : Session → Except PyErr β) : WithOut β :=
  let l := login s loginRes
  match l.result with
  | .error e => ⟨l.session, 0, .error e⟩
  | .ok _ =>
    let b := body l.session
    let lo := logout l.session
    match b with
    | .ok x => ⟨lo.session, 1, .ok x⟩
    | .error e => ⟨lo.session, 1, .error e⟩

/-! Spec-side definitions, written from the specification's words, used to
compare the code's behaviour against the claims. -/

/-- Modelled from the spec: the table of messages a logger constructed from a
level string is claimed to emit, as (info, warning, error) flags: all three
for strings whose lowercase form starts with "i", warning and error for "w",
none for "s", and error only for anything else. -/
def claimedEmissions (level : String) : Bool × Bool × Bool :=
  if pyStartswith (pyLower level) "i" then (true, true, true)
  else if pyStartswith (pyLower level) "w" then (false, true, true)
  else if pyStartswith (pyLower level) "s" then (false, false, false)
  else (false, false, true)

/-- A message routed through one of the three gated logger methods. -/
inductive Msg where
  | info
  | warning
  | error

/-- Numeric level of a message under the ordering info < warning < error <
suppress (info 1, warning 2, error 3; the suppress level itself is 4 and has
no message kind). -/
def Msg.num : Msg → Nat
  | .info => 1
  | .warning => 2
  | .error => 3

/-- Whether the logger emits a message sent through the method of the given
kind. -/
def Logger.emitsMsg (l : Logger) : Msg → Bool
  | .info => l.i
  | .warning => l.w
  | .error => l.e

/-- Spec-side view of an errorMessages list: the errorKey field of each
entry. -/
def entryKeys (entries : List Json) : List Json :=
  entries.filterMap (fun e => e.lookup "errorKey")

/-- The messages passed to `logger.e` among a list of logger calls. -/
def errCalls (logs : List LogCall) : List Json :=
  logs.filterMap (fun c => match c with | .err m => some m | _ => none)

/-- The needle occurs in `v` at position `i`. -/
def hasSubAt (v sub : List Char) (i : Nat) : Bool := sub.isPrefixOf (v.drop i)

/-- Modelled from the spec: the claimed result of cookie extraction, the
substring starting at position `i` and extending up to the next semicolon, or
to the end of the string when no semicolon follows. -/
def claimedExtract (v : String) (i : Nat) : String :=
  String.mk ((v.data.drop i).takeWhile (fun c => c != ';'))

/-- Membership of a (name, value) pair in a header list. -/
def hdrMem : List (String × String) → String × String → Bool
  | [], _ => false
  | p :: rest, h => decide (p = h) || hdrMem rest h

/-- Every request in the list carries the session cookie header. -/
def allCookie (rs : List Request) (ck : String) : Bool :=
  rs.all (fun r => hdrMem r.headers ("Cookie", ck))

/-- Every request in the list carries a Referer header equal to `host`
exactly when `flag` is set. -/
def refererMatches (rs : List Request) (host : String) (flag : Bool) : Bool :=
  rs.all (fun r => hdrMem r.headers ("Referer", host) == flag)

/-! Concrete fixtures used by the witness theorems. -/

def demoSession : Session := ⟨"http://arc", "usr", "pwd", false, ⟨2⟩, none⟩

def authSession : Session := { demoSession with session_cookie := some "JSESSIONID=x" }

def badCredsBody : Json :=
  Json.obj [("errorMessages", Json.arr [Json.obj [("errorKey", Json.str "bad.credentials")]])]

def res401 : HttpResponse := ⟨401, "x", some badCredsBody, none⟩

def resScalar : HttpResponse := ⟨502, "42", some (Json.num 42), none⟩

def versionsBody : Json := Json.obj [("versions", Json.arr [Json.str "1.0", Json.str "1.1"])]

def res200versions : HttpResponse := ⟨200, "x", some versionsBody, none⟩

def res500 : HttpResponse := ⟨500, "", none, none⟩

def artifactRecord : Json :=
  Json.obj [("id", Json.str "app-1.0.jar"), ("url", Json.str "http://arc/repo/app-1.0.jar")]

def resInfos : HttpResponse := ⟨200, "x", some (Json.arr [artifactRecord]), none⟩

def resInfosEmpty : HttpResponse := ⟨200, "x", some (Json.arr []), none⟩

def resFetch : HttpResponse := ⟨200, "artifact-bytes", none, none⟩

def loginOkRes : HttpResponse := ⟨200, "", none, some "JSESSIONID=zzz; Path=/"⟩

/-! Theorems. -/

/-- C3: the set of messages a logger emits, by constructor level string:
info, warning and error for strings whose lowercase form starts with "i";
warning and error for "w"; none for "s"; and error only for every other
string (the unrecognized fallback is error-and-above-only, not the "w"
default). -/
theorem logger_level_table (level : String) :
    ((Logger.init level).i, (Logger.init level).w, (Logger.init level).e) =
      claimedEmissions level := by
  by_cases h1 : pyStartswith (pyLower level) "i" = true
  · simp [Logger.init, claimedEmissions, h1, Logger.i, Logger.w, Logger.e]
  · by_cases h2 : pyStartswith (pyLower level) "w" = true
    · simp [Logger.init, claimedEmissions, h1, h2, Logger.i, Logger.w, Logger.e]
    · by_cases h3 : pyStartswith (pyLower level) "s" = true
      · simp [Logger.init, claimedEmissions, h1, h2, h3, Logger.i, Logger.w, Logger.e]
      · simp [Logger.init, claimedEmissions, h1, h2, h3, Logger.i, Logger.w, Logger.e]

/-- C4 counterexample: a logger configured with level "w" (numeric level 2)
emits an error message (numeric level 3), although 3 ≤ 2 fails; so emission
is not gated by message level ≤ configured level as claimed. -/
theorem logger_threshold_direction_cex :
    (Logger.init "w").emitsMsg Msg.error = true ∧
    ¬ (Msg.num Msg.error ≤ (Logger.init "w").level) := by decide

/-- C4 amended: under the numeric assignment info 1 < warning 2 < error 3 <
suppress 4, a message is emitted exactly when the configured level's numeric
value is less than or equal to the message's numeric level. -/
theorem logger_threshold_spec (level : String) (m : Msg) :
    (Logger.init level).emitsMsg m = decide ((Logger.init level).level ≤ m.num) := by
  cases m <;> rfl

/-- C9: logout leaves every local session field unchanged, including the
session token. -/
theorem logout_frame (s : Session) (ck : String) (hck : s.session_cookie = some ck) :
    (logout s).session = s ∧
    (logout s).session.session_cookie = s.session_cookie ∧
    (logout s).session.host = s.host ∧
    (logout s).session.user = s.user ∧
    (logout s).session.password = s.password ∧
    (logout s).session.set_referer = s.set_referer ∧
    (logout s).session.logger = s.logger := by
  simp [logout, hck]

/-- C9 witness at a concrete authenticated session. -/
theorem logout_frame_witness : (logout authSession).session = authSession :=
  (logout_frame authSession "JSESSIONID=x" rfl).1

/-- C10: login is atomic in the local state: on any raising outcome the
session is exactly as before the call, and the token is assigned only on the
HTTP 200 path. -/
theorem login_atomic (s : Session) (res : HttpResponse) :
    (∀ e, (login s res).result = .error e → (login s res).session = s) ∧
    (res.status_code ≠ 200 → (login s res).session = s) ∧
    (∀ sc, res.status_code = 200 → res.setCookie = some sc →
      (login s res).session = { s with session_cookie := some (extract_session_cookie sc) }) := by
  refine ⟨?_, ?_, ?_⟩
  · intro e he
    by_cases h : res.status_code ≠ 200
    · unfold login
      rw [if_pos h]
      dsimp only
      (repeat' split) <;> rfl
    · unfold login at he ⊢
      rw [if_neg h] at he ⊢
      cases hsc : res.setCookie with
      | some sc => rw [hsc] at he; simp at he
      | none => rfl
  · intro h
    unfold login
    rw [if_pos h]
    dsimp only
    (repeat' split) <;> rfl
  · intro sc h hsc
    unfold login
    rw [if_neg (by simp [h]), hsc]

/-- C10 witness: a concrete 500 response with an undecodable empty body
leaves a concrete session unchanged. -/
theorem login_atomic_witness : (login demoSession res500).session = demoSession :=
  (login_atomic demoSession res500).2.1 (by decide)

/-- C8: in the with-block pattern, when login succeeds logout runs exactly
once on every exit path (the block's outcome, normal or exceptional, is
passed through); when login itself raises, logout never runs. -/
theorem with_session_logout_once {β : Type} (s : Session) (loginRes : HttpResponse)
    (body : Session → Except PyErr β) :
    ((login s loginRes).result = .ok () →
      (withSession s loginRes body).logoutCalls = 1 ∧
      (withSession s loginRes body).result = body (login s loginRes).session) ∧
    (∀ e, (login s loginRes).result = .error e →
      (withSession s loginRes body).logoutCalls = 0) := by
  constructor
  · intro h
    unfold withSession
    dsimp only
    rw [h]
    cases hb : body (login s loginRes).session <;> simp
  · intro e h
    unfold withSession
    dsimp only
    rw [h]

/-- C8 witness: with a successful concrete login and a guarded block that
raises, logout still runs exactly once and the exception propagates. -/
theorem with_session_logout_once_witness :
    (withSession demoSession loginOkRes
      (fun _ => (.error .typeError : Except PyErr Unit))).logoutCalls = 1 ∧
    (withSession demoSession loginOkRes
      (fun _ => (.error .typeError : Except PyErr Unit))).result = .error .typeError := by
  have h := (with_session_logout_once demoSession loginOkRes
    (fun _ => (.error .typeError : Except PyErr Unit))).1 rfl
  exact ⟨h.1, h.2⟩

/-- Splitting a list of logger calls splits its error-call projection. -/
theorem errCalls_append (a b : List LogCall) : errCalls (a ++ b) = errCalls a ++ errCalls b := by
  simp [errCalls]

/-- The error calls of a pure error-call list are its messages. -/
theorem errCalls_map_err (ks : List Json) : errCalls (ks.map LogCall.err) = ks := by
  induction ks with
  | nil => rfl
  | cons k t ih => simpa [errCalls, List.filterMap_cons] using ih

/-- When every errorMessages entry has an errorKey field, the logging loop
runs to completion and logs exactly those keys. -/
theorem collectErrorKeys_complete (entries : List Json)
    (h : ∀ e ∈ entries, (Json.lookup e "errorKey").isSome = true) :
    collectErrorKeys entries = (entryKeys entries, true) := by
  induction entries with
  | nil => rfl
  | cons e rest ih =>
    have he := h e (by simp)
    cases hk : Json.lookup e "errorKey" with
    | none => rw [hk] at he; simp at he
    | some k =>
      have ih2 := ih (fun x hx => h x (List.mem_cons_of_mem _ hx))
      simp [collectErrorKeys, hk, entryKeys, List.filterMap_cons, ih2]

/-- C1 counterexample: a 502 response whose body decodes to the JSON scalar
42 — JSON without an errorMessages key — makes the membership test
`\x22errorMessages\x22 in body` raise TypeError, so login propagates TypeError
instead of raising the claimed ErrorResponse carrying the raw decoded
body. -/
theorem login_scalar_body_cex :
    (login demoSession resScalar).result = .error .typeError ∧
    (login demoSession resScalar).result ≠
      .error (.errorResponse 502 (Json.num 42)) := by
  refine ⟨rfl, fun h => ?_⟩
  have h0 : (login demoSession resScalar).result = .error .typeError := rfl
  rw [h0] at h
  injection h with h2
  exact PyErr.noConfusion h2

/-- C1 amended: on any non-200 login response, (a) a body decoding to a JSON
object with an errorMessages list makes login log each entry's error key at
error level and raise ErrorResponse with the status and exactly those
messages; (b) a decoded body on which the membership test is false (an
object without the key, or a string/array not containing the needle) makes
it raise ErrorResponse with the status and the raw decoded body; (c) a
scalar body makes the membership test itself raise TypeError, and (d) a
non-object body on which the test is true raises TypeError from the string
indexing; (e) an undecodable empty body becomes ErrorResponse with the
status and no messages; (f) an undecodable non-empty body propagates the
decode failure unchanged. -/
theorem login_error_paths (s : Session) (res : HttpResponse)
    (h200 : res.status_code ≠ 200) :
    (∀ fields entries, res.decoded = some (Json.obj fields) →
      lookupKey fields "errorMessages" = some (Json.arr entries) →
      (∀ e ∈ entries, (Json.lookup e "errorKey").isSome = true) →
      (login s res).result = .error (.errorResponse res.status_code (Json.arr entries)) ∧
      errCalls (login s res).logs = entryKeys entries) ∧
    (∀ body, res.decoded = some body → pyStrIn "errorMessages" body = some false →
      (login s res).result = .error (.errorResponse res.status_code body)) ∧
    (∀ body, res.decoded = some body → pyStrIn "errorMessages" body = none →
      (login s res).result = .error .typeError) ∧
    (∀ body, res.decoded = some body → pyStrIn "errorMessages" body = some true →
      (∀ fields, body ≠ Json.obj fields) →
      (login s res).result = .error .typeError) ∧
    (res.decoded = none → res.rawBody = "" →
      (login s res).result = .error (.errorResponse res.status_code (Json.arr []))) ∧
    (res.decoded = none → res.rawBody ≠ "" →
      (login s res).result = .error (.jsonDecodeError res.rawBody)) := by
  refine ⟨?_, ?_, ?_, ?_, ?_, ?_⟩
  · intro fields entries hd hl hkeys
    have hc := collectErrorKeys_complete entries hkeys
    unfold login
    rw [if_pos h200, hd]
    dsimp only [pyStrIn]
    rw [hl]
    dsimp only [Option.isSome]
    rw [hc]
    dsimp only
    split
    · exact ⟨rfl, by rw [errCalls_append, errCalls_map_err]; rfl⟩
    · next h2 => exact absurd rfl h2
  · intro body hd hin
    unfold login
    rw [if_pos h200, hd]
    dsimp only
    rw [hin]
  · intro body hd hin
    unfold login
    rw [if_pos h200, hd]
    dsimp only
    rw [hin]
  · intro body hd hin hnobj
    cases body with
    | obj fields => exact absurd rfl (hnobj fields)
    | str s2 =>
      unfold login
      rw [if_pos h200, hd]
      dsimp only
      rw [hin]
    | arr xs =>
      unfold login
      rw [if_pos h200, hd]
      dsimp only
      rw [hin]
    | null => simp [pyStrIn] at hin
    | bool b => simp [pyStrIn] at hin
    | num m => simp [pyStrIn] at hin
  · intro hd hemp
    unfold login
    rw [if_pos h200, hd]
    dsimp only
    rw [if_pos hemp]
  · intro hd hemp
    unfold login
    rw [if_pos h200, hd]
    dsimp only
    rw [if_neg hemp]

/-- C1 witness: the 401 bad-credentials response from the spec's test
scenario. -/
theorem login_error_paths_witness :
    (login demoSession res401).result =
      .error (.errorResponse 401 (Json.arr [Json.obj [("errorKey", Json.str "bad.credentials")]])) ∧
    errCalls (login demoSession res401).logs = [Json.str "bad.credentials"] := by
  have h := (login_error_paths demoSession res401 (by decide)).1
    [("errorMessages", Json.arr [Json.obj [("errorKey", Json.str "bad.credentials")]])]
    [Json.obj [("errorKey", Json.str "bad.credentials")]] rfl rfl (by decide)
  exact ⟨h.1, h.2⟩

/-- C6: get_versions_list returns the decoded JSON body exactly when the
status is 200, and on any other status logs the code at error level and
raises ErrorResponse with that status and no messages; get_download_infos
obeys the same contract. -/
theorem browse_status_contract (s : Session) (ck g n v : String) (res : HttpResponse)
    (hck : s.session_cookie = some ck) :
    (∀ j, (get_versions_list s g n res).result = .ok j ↔
      (res.status_code = 200 ∧ res.decoded = some j)) ∧
    (res.status_code ≠ 200 →
      (get_versions_list s g n res).result =
        .error (.errorResponse res.status_code (Json.arr [])) ∧
      LogCall.err (Json.str ("status code: " ++ toString res.status_code)) ∈
        (get_versions_list s g n res).logs) ∧
    (∀ j, (get_download_infos s g n v res).result = .ok j ↔
      (res.status_code = 200 ∧ res.decoded = some j)) ∧
    (res.status_code ≠ 200 →
      (get_download_infos s g n v res).result =
        .error (.errorResponse res.status_code (Json.arr [])) ∧
      LogCall.err (Json.str ("status code: " ++ toString res.status_code)) ∈
        (get_download_infos s g n v res).logs) := by
  refine ⟨?_, ?_, ?_, ?_⟩
  · intro j
    unfold get_versions_list
    rw [hck]
    dsimp only
    by_cases h200 : res.status_code = 200
    · rw [if_pos h200]
      cases hd : res.decoded <;> simp [h200]
    · rw [if_neg h200]
      simp [h200]
  · intro h200
    unfold get_versions_list
    rw [hck]
    dsimp only
    rw [if_neg h200]
    exact ⟨rfl, by simp⟩
  · intro j
    unfold get_download_infos
    rw [hck]
    dsimp only
    by_cases h200 : res.status_code = 200
    · rw [if_pos h200]
      cases hd : res.decoded <;> simp [h200]
    · rw [if_neg h200]
      simp [h200]
  · intro h200
    unfold get_download_infos
    rw [hck]
    dsimp only
    rw [if_neg h200]
    exact ⟨rfl, by simp⟩

/-- C6 witness: a 200 versionsList response is returned unchanged; a 500
downloadInfos response raises ErrorResponse(500) with no messages. -/
theorem browse_status_contract_witness :
    (get_versions_list authSession "com.acme" "app" res200versions).result = .ok versionsBody ∧
    (get_download_infos authSession "com.acme" "app" "1.0" res500).result =
      .error (.errorResponse 500 (Json.arr [])) := by
  constructor
  · exact ((browse_status_contract authSession "JSESSIONID=x" "com.acme" "app" "1.0"
      res200versions rfl).1 versionsBody).mpr ⟨rfl, rfl⟩
  · exact ((browse_status_contract authSession "JSESSIONID=x" "com.acme" "app" "1.0"
      res500 rfl).2.2.2 (by decide)).1

/-- C5: download first queries downloadInfos; an empty record list yields the
False sentinel with no artifact-fetch request and no file write; otherwise
the first record's url and id are used: the artifact GET goes to that url,
and on 200 the raw body is written to a file named by the id and that
filename is returned, while any other status logs the code and raises
ErrorResponse. -/
theorem download_spec (s : Session) (ck g n v : String) (infosRes fetchRes : HttpResponse)
    (hck : s.session_cookie = some ck) :
    ((get_download_infos s g n v infosRes).result = .ok (Json.arr []) →
      (download s g n v infosRes fetchRes).result = .ok .retFalse ∧
      (download s g n v infosRes fetchRes).requests =
        (get_download_infos s g n v infosRes).requests ∧
      (download s g n v infosRes fetchRes).fileWrites = []) ∧
    (∀ first rest url fname,
      (get_download_infos s g n v infosRes).result = .ok (Json.arr (first :: rest)) →
      first.lookup "url" = some (Json.str url) →
      first.lookup "id" = some (Json.str fname) →
      (download s g n v infosRes fetchRes).requests =
        (get_download_infos s g n v infosRes).requests ++
          [⟨"GET", url, withReferer s [("Cookie", ck)], none⟩] ∧
      (fetchRes.status_code = 200 →
        (download s g n v infosRes fetchRes).fileWrites = [(fname, fetchRes.rawBody)] ∧
        (download s g n v infosRes fetchRes).result = .ok (.retFilename fname)) ∧
      (fetchRes.status_code ≠ 200 →
        (download s g n v infosRes fetchRes).result =
          .error (.errorResponse fetchRes.status_code (Json.arr [])) ∧
        LogCall.err (Json.str ("status code: " ++ toString fetchRes.status_code)) ∈
          (download s g n v infosRes fetchRes).logs ∧
        (download s g n v infosRes fetchRes).fileWrites = [])) := by
  constructor
  · intro h
    unfold download
    dsimp only
    rw [h]
    exact ⟨rfl, rfl, rfl⟩
  · intro first rest url fname hres hu hid
    unfold download
    dsimp only
    rw [hres]
    dsimp only
    rw [hu]
    dsimp only
    rw [hid]
    dsimp only
    rw [hck]
    dsimp only
    refine ⟨?_, ?_, ?_⟩
    · split <;> rfl
    · intro hf
      rw [if_pos hf]
      exact ⟨rfl, rfl⟩
    · intro hf
      rw [if_neg hf]
      exact ⟨rfl, by simp, rfl⟩

/-- C5 witness: an empty downloadInfos array yields the False sentinel, and a
one-record response with a 200 artifact fetch writes the body to the file
named by the record's id. -/
theorem download_spec_witness :
    (download authSession "com.acme" "app" "1.0" resInfosEmpty resFetch).result = .ok .retFalse ∧
    (download authSession "com.acme" "app" "1.0" resInfos resFetch).fileWrites =
      [("app-1.0.jar", "artifact-bytes")] := by
  constructor
  · exact ((download_spec authSession "JSESSIONID=x" "com.acme" "app" "1.0"
      resInfosEmpty resFetch rfl).1 rfl).1
  · exact (((download_spec authSession "JSESSIONID=x" "com.acme" "app" "1.0"
      resInfos resFetch rfl).2 artifactRecord [] "http://arc/repo/app-1.0.jar" "app-1.0.jar"
      rfl rfl rfl).2.1 rfl).1

/-- Header membership distributes over concatenation. -/
theorem hdrMem_append (l1 l2 : List (String × String)) (h : String × String) :
    hdrMem (l1 ++ l2) h = (hdrMem l1 h || hdrMem l2 h) := by
  induction l1 with
  | nil => simp [hdrMem]
  | cons p t ih => simp [hdrMem, ih, Bool.or_assoc]

/-- A header whose name differs from every name in the list is not a
member. -/
theorem hdrMem_false_of_fst_ne (l : List (String × String)) (h : String × String)
    (hne : ∀ p ∈ l, p.1 ≠ h.1) : hdrMem l h = false := by
  induction l with
  | nil => rfl
  | cons p t ih =>
    have h1 : decide (p = h) = false :=
      decide_eq_false (fun he => hne p (by simp) (congrArg Prod.fst he))
    simp [hdrMem, h1, ih (fun q hq => hne q (List.mem_cons_of_mem _ hq))]

/-- Adding the optional Referer header does not affect membership of headers
with a different name. -/
theorem hdrMem_withReferer_of_ne (s : Session) (base : List (String × String))
    (h : String × String) (hne : h.1 ≠ "Referer") :
    hdrMem (withReferer s base) h = hdrMem base h := by
  unfold withReferer
  by_cases hf : s.set_referer
  · rw [if_pos hf, hdrMem_append]
    have hd : decide ((("Referer", s.host) : String × String) = h) = false :=
      decide_eq_false (fun he => hne (congrArg Prod.fst he).symm)
    simp [hdrMem, hd]
  · rw [if_neg hf]

/-- The (Referer, host) pair is present exactly when the flag is set,
provided the base header dict does not itself hold a Referer entry. -/
theorem hdrMem_withReferer_referer (s : Session) (base : List (String × String))
    (hb : hdrMem base ("Referer", s.host) = false) :
    hdrMem (withReferer s base) ("Referer", s.host) = s.set_referer := by
  unfold withReferer
  cases hf : s.set_referer
  · simp [hb]
  · simp [hdrMem_append, hdrMem, hb]

/-- The single request login issues, on every response path. -/
theorem login_requests_eq (s : Session) (res : HttpResponse) :
    (login s res).requests =
      [⟨"POST", loginUri s.host,
        withReferer s [("Content-Type", "application/xml"), ("Accept", "application/json")],
        some (LoginRequest.get_xml ⟨s.user, s.password⟩)⟩] := by
  unfold login
  dsimp only
  (repeat' split) <;> rfl

/-- The single request logout issues. -/
theorem logout_requests_eq (s : Session) (ck : String) (hck : s.session_cookie = some ck) :
    (logout s).requests = [⟨"GET", logoutUri s.host, withReferer s [("Cookie", ck)], none⟩] := by
  unfold logout
  rw [hck]

/-- The single request get_versions_list issues. -/
theorem gvl_requests_eq (s : Session) (ck g n : String) (res : HttpResponse)
    (hck : s.session_cookie = some ck) :
    (get_versions_list s g n res).requests =
      [⟨"GET", versionsListUri s.host g n,
        withReferer s [("Cookie", ck), ("Accept", "application/json")], none⟩] := by
  unfold get_versions_list
  rw [hck]
  dsimp only
  (repeat' split) <;> rfl

/-- The single request get_download_infos issues. -/
theorem gdi_requests_eq (s : Session) (ck g n v : String) (res : HttpResponse)
    (hck : s.session_cookie = some ck) :
    (get_download_infos s g n v res).requests =
      [⟨"GET", downloadInfosUri s.host g n v, withReferer s [("Cookie", ck)], none⟩] := by
  unfold get_download_infos
  rw [hck]
  dsimp only
  (repeat' split) <;> rfl

/-- The requests download issues: those of its downloadInfos call, possibly
followed by one artifact fetch whose headers are the cookie dict with the
optional Referer. -/
theorem download_requests_cases (s : Session) (g n v : String)
    (infosRes fetchRes : HttpResponse) :
    (download s g n v infosRes fetchRes).requests =
      (get_download_infos s g n v infosRes).requests ∨
    ∃ ck url,
      s.session_cookie = some ck ∧
      (download s g n v infosRes fetchRes).requests =
        (get_download_infos s g n v infosRes).requests ++
          [⟨"GET", url, withReferer s [("Cookie", ck)], none⟩] := by
  unfold download
  dsimp only
  (repeat' split) <;>
    first
      | exact Or.inl rfl
      | exact Or.inr ⟨_, _, by assumption, rfl⟩

/-- C7: every logout, versionsList, downloadInfos and artifact-fetch request
carries a Cookie header equal to the current session token, and across all
five operations (login included) a Referer header equal to the host is
present exactly when the session's set_referer flag is set. -/
theorem request_headers_invariant (s : Session) (ck g n v : String)
    (res infosRes fetchRes : HttpResponse) (hck : s.session_cookie = some ck) :
    allCookie (logout s).requests ck = true ∧
    allCookie (get_versions_list s g n res).requests ck = true ∧
    allCookie (get_download_infos s g n v infosRes).requests ck = true ∧
    allCookie (download s g n v infosRes fetchRes).requests ck = true ∧
    refererMatches ((login s res).requests ++ (logout s).requests ++
        (get_versions_list s g n res).requests ++
        (get_download_infos s g n v infosRes).requests ++
        (download s g n v infosRes fetchRes).requests) s.host s.set_referer = true := by
  have hcookie : ∀ extra : List (String × String),
      hdrMem (withReferer s (("Cookie", ck) :: extra)) ("Cookie", ck) = true := by
    intro extra
    rw [hdrMem_withReferer_of_ne s _ _ (by exact (by decide : "Cookie" ≠ "Referer"))]
    simp [hdrMem]
  have href : ∀ base : List (String × String), (∀ p ∈ base, p.1 ≠ "Referer") →
      (hdrMem (withReferer s base) ("Referer", s.host) == s.set_referer) = true := by
    intro base hb
    rw [hdrMem_withReferer_referer s base (hdrMem_false_of_fst_ne base _ hb)]
    exact beq_self_eq_true _
  have h2 : allCookie (get_versions_list s g n res).requests ck = true := by
    rw [gvl_requests_eq s ck g n res hck]
    simp only [allCookie, List.all_cons, List.all_nil, Bool.and_true]
    exact hcookie [("Accept", "application/json")]
  have h3 : allCookie (get_download_infos s g n v infosRes).requests ck = true := by
    rw [gdi_requests_eq s ck g n v infosRes hck]
    simp only [allCookie, List.all_cons, List.all_nil, Bool.and_true]
    exact hcookie []
  have h4 : allCookie (download s g n v infosRes fetchRes).requests ck = true := by
    rcases download_requests_cases s g n v infosRes fetchRes with h | ⟨ck2, url, hck2, h⟩
    · rw [allCookie, h]
      exact h3
    · have hckeq : ck2 = ck := by
        rw [hck] at hck2
        exact (Option.some.injEq _ _).mp hck2.symm
      subst hckeq
      rw [allCookie, h, List.all_append]
      refine Bool.and_eq_true_iff.mpr ⟨?_, ?_⟩
      · exact h3
      · simp only [List.all_cons, List.all_nil, Bool.and_true]
        exact hcookie []
  refine ⟨?_, h2, h3, h4, ?_⟩
  · rw [logout_requests_eq s ck hck]
    simp only [allCookie, List.all_cons, List.all_nil, Bool.and_true]
    exact hcookie []
  · have hb1 : ∀ p ∈ ([("Content-Type", "application/xml"),
        ("Accept", "application/json")] : List (String × String)), p.1 ≠ "Referer" := by
      intro p hp
      simp only [List.mem_cons, List.not_mem_nil, or_false] at hp
      rcases hp with rfl | rfl <;> decide
    have hb2 : ∀ p ∈ ([("Cookie", ck)] : List (String × String)), p.1 ≠ "Referer" := by
      intro p hp
      simp only [List.mem_singleton] at hp
      subst hp
      exact (by decide : "Cookie" ≠ "Referer")
    have hb3 : ∀ p ∈ ([("Cookie", ck),
        ("Accept", "application/json")] : List (String × String)), p.1 ≠ "Referer" := by
      intro p hp
      simp only [List.mem_cons, List.not_mem_nil, or_false] at hp
      rcases hp with rfl | rfl
      · exact (by decide : "Cookie" ≠ "Referer")
      · decide
    rcases download_requests_cases s g n v infosRes fetchRes with h5 | ⟨ck2, url, hck2, h5⟩
    · rw [refererMatches, login_requests_eq, logout_requests_eq s ck hck,
        gvl_requests_eq s ck g n res hck, gdi_requests_eq s ck g n v infosRes hck, h5,
        gdi_requests_eq s ck g n v infosRes hck]
      simp only [List.all_append, List.all_cons, List.all_nil, Bool.and_true]
      rw [href _ hb1, href _ hb3, href _ hb2]
      rfl
    · have hckeq : ck2 = ck := by
        rw [hck] at hck2
        exact (Option.some.injEq _ _).mp hck2.symm
      subst hckeq
      rw [refererMatches, login_requests_eq, logout_requests_eq s ck2 hck,
        gvl_requests_eq s ck2 g n res hck, gdi_requests_eq s ck2 g n v infosRes hck, h5,
        gdi_requests_eq s ck2 g n v infosRes hck]
      simp only [List.all_append, List.all_cons, List.all_nil, Bool.and_true]
      rw [href _ hb1, href _ hb3, href _ hb2]
      rfl

/-- C7 witness: concrete logout and download requests all carry the session
cookie of a concrete authenticated session. -/
theorem request_headers_invariant_witness :
    allCookie (logout authSession).requests "JSESSIONID=x" = true ∧
    allCookie (download authSession "com.acme" "app" "1.0" resInfos resFetch).requests
      "JSESSIONID=x" = true := by
  have h := request_headers_invariant authSession "JSESSIONID=x" "com.acme" "app" "1.0"
    res500 resInfos resFetch rfl
  exact ⟨h.1, h.2.2.2.1⟩

/-- A prefix is no longer than the list it starts. -/
theorem isPrefixOf_length {l1 l2 : List Char} (h : l1.isPrefixOf l2 = true) :
    l1.length ≤ l2.length := by
  induction l1 generalizing l2 with
  | nil => simp
  | cons a t ih =>
    cases l2 with
    | nil => simp at h
    | cons b t2 =>
      rw [List.isPrefixOf_cons₂] at h
      have h2 := (Bool.and_eq_true_iff.mp h).2
      simpa using ih h2

/-- The scanning loop of Python find locates the first occurrence: if the
needle occurs at position i and at no earlier position, the scan started with
counter k reports k + i. -/
theorem findSub_first (need hay : List Char) (i k : Nat)
    (hocc : need.isPrefixOf (hay.drop i) = true)
    (hfirst : ∀ j, j < i → need.isPrefixOf (hay.drop j) = false) :
    findSub need hay k = some (k + i) := by
  induction i generalizing hay k with
  | zero =>
    rw [List.drop_zero] at hocc
    cases hay with
    | nil => simp [findSub, hocc]
    | cons c t => simp [findSub, hocc]
  | succ m ih =>
    have h0 := hfirst 0 (Nat.succ_pos m)
    rw [List.drop_zero] at h0
    cases hay with
    | nil =>
      rw [List.drop_nil] at hocc
      rw [h0] at hocc
      simp at hocc
    | cons c t =>
      have hocc2 : need.isPrefixOf (t.drop m) = true := by
        rw [List.drop_succ_cons] at hocc
        exact hocc
      have hfirst2 : ∀ j, j < m → need.isPrefixOf (t.drop j) = false := by
        intro j hj
        have hthis := hfirst (j + 1) (Nat.succ_lt_succ hj)
        rw [List.drop_succ_cons] at hthis
        exact hthis
      have hstep : findSub need (c :: t) k = findSub need t (k + 1) := by
        simp [findSub, h0]
      rw [hstep, ih t (k + 1) hocc2 hfirst2]
      congr 1
      omega

/-- Finding a single character that does occur yields the length of the
longest prefix free of it. -/
theorem findSub_single_mem (ch : Char) (l : List Char) (k : Nat)
    (h : l.contains ch = true) :
    findSub [ch] l k = some (k + (l.takeWhile (fun c => c != ch)).length) := by
  induction l generalizing k with
  | nil => simp at h
  | cons c t ih =>
    by_cases hc : ch = c
    · subst hc
      simp [findSub, List.isPrefixOf_cons₂]
    · have hcc : (ch == c) = false := beq_eq_false_iff_ne.mpr hc
      have h2 : t.contains ch = true := by
        rw [List.contains_cons, hcc] at h
        simpa using h
      have hstep : findSub [ch] (c :: t) k = findSub [ch] t (k + 1) := by
        simp [findSub, List.isPrefixOf_cons₂, hcc]
      have hpc : (c != ch) = true := by
        simp
        exact fun he => hc he.symm
      have htw : List.takeWhile (fun x => x != ch) (c :: t) =
          c :: List.takeWhile (fun x => x != ch) t :=
        @List.takeWhile_cons_of_pos _ (fun x => x != ch) c t hpc
      rw [hstep, ih (k + 1) h2, htw]
      simp
      omega

/-- Finding a single character that does not occur fails. -/
theorem findSub_single_none (ch : Char) (l : List Char) (k : Nat)
    (h : l.contains ch = false) : findSub [ch] l k = none := by
  induction l generalizing k with
  | nil => rfl
  | cons c t ih =>
    rw [List.contains_cons] at h
    have hcc : (ch == c) = false := (Bool.or_eq_false_iff.mp h).1
    have h2 : t.contains ch = false := (Bool.or_eq_false_iff.mp h).2
    have hstep : findSub [ch] (c :: t) k = findSub [ch] t (k + 1) := by
      simp [findSub, List.isPrefixOf_cons₂, hcc]
    rw [hstep, ih (k + 1) h2]

/-- takeWhile never lengthens a list. -/
theorem length_takeWhile_le (p : Char → Bool) (l : List Char) :
    (l.takeWhile p).length ≤ l.length := by
  induction l with
  | nil => simp
  | cons c t ih =>
    by_cases hp : p c
    · simpa [List.takeWhile_cons_of_pos hp] using Nat.succ_le_succ ih
    · simp [List.takeWhile_cons_of_neg hp]

/-- Taking the length of the takeWhile segment recovers it. -/
theorem take_length_takeWhile (p : Char → Bool) (l : List Char) :
    l.take (l.takeWhile p).length = l.takeWhile p := by
  induction l with
  | nil => rfl
  | cons c t ih =>
    by_cases hp : p c
    · simp [List.takeWhile_cons_of_pos hp, ih]
    · simp [List.takeWhile_cons_of_neg hp]

/-- C2 counterexample: on a value where JSESSIONID occurs (at index 0) and no
semicolon follows, the claim demands the substring to the end of the string,
but extract_session_cookie drops the final character: Python find returns -1
and the slice bound -1 excludes the last character. -/
theorem extract_no_semicolon_cex :
    hasSubAt ("JSESSIONID=abc").data ("JSESSIONID").data 0 = true ∧
    ("JSESSIONID=abc").data.contains ';' = false ∧
    extract_session_cookie "JSESSIONID=abc" ≠ "JSESSIONID=abc" ∧
    extract_session_cookie "JSESSIONID=abc" = "JSESSIONID=ab" := by decide

/-- C2 amended: for a value whose first JSESSIONID occurrence is at position
i, the extraction returns the substring from i up to the next semicolon when
one follows, and otherwise the substring from i up to but excluding the LAST
character of the value (one character is dropped, not extended to the end of
the string as claimed). -/
theorem extract_session_cookie_spec (v : String) (i : Nat)
    (hocc : hasSubAt v.data ("JSESSIONID").data i = true)
    (hfirst : ∀ j, j < i → hasSubAt v.data ("JSESSIONID").data j = false) :
    extract_session_cookie v =
      if (v.data.drop i).contains ';' then claimedExtract v i
      else String.mk ((v.data.drop i).dropLast) := by
  have hocc2 : ("JSESSIONID".data).isPrefixOf (v.data.drop i) = true := hocc
  have hlen0 : ("JSESSIONID".data).length ≤ (v.data.drop i).length := isPrefixOf_length hocc2
  rw [List.length_drop] at hlen0
  have hlenJ : ("JSESSIONID".data).length = 10 := rfl
  rw [hlenJ] at hlen0
  have hbound : i + 10 ≤ v.data.length := by omega
  have hfind1 : pyFind v "JSESSIONID" 0 = (i : Int) := by
    unfold pyFind
    dsimp only
    rw [if_neg (lt_irrefl (0 : Int))]
    rw [Int.toNat_zero, List.drop_zero]
    rw [findSub_first ("JSESSIONID".data) v.data i 0 hocc2 (fun j hj => hfirst j hj)]
    simp
  unfold extract_session_cookie
  dsimp only
  rw [hfind1]
  cases hsemi : (v.data.drop i).contains ';'
  · have hfind2 : pyFind v ";" (i : Int) = -1 := by
      unfold pyFind
      dsimp only
      rw [if_neg (by omega : ¬ ((i : Int) < 0))]
      rw [Int.toNat_natCast]
      rw [findSub_single_none ';' (v.data.drop i) 0 hsemi]
    rw [hfind2]
    unfold pySlice sliceIndex
    dsimp only
    rw [if_neg (by omega : ¬ ((i : Int) < 0))]
    rw [if_pos (by omega : ((-1 : Int) < 0))]
    rw [Int.toNat_natCast]
    have hh1 : ((v.data.length : Int) + (-1)).toNat = v.data.length - 1 := by omega
    rw [hh1]
    rw [min_eq_left (by omega : i ≤ v.data.length)]
    congr 1
    rw [List.dropLast_eq_take, List.length_drop]
    have h9 : v.data.length - 1 = i + (v.data.length - 1 - i) := by omega
    rw [h9, ← List.take_drop]
    congr 1
    omega
  · have hfind2 : pyFind v ";" (i : Int) =
        ((i + ((v.data.drop i).takeWhile (fun c => c != ';')).length : Nat) : Int) := by
      unfold pyFind
      dsimp only
      rw [if_neg (by omega : ¬ ((i : Int) < 0))]
      rw [Int.toNat_natCast]
      rw [findSub_single_mem ';' (v.data.drop i) 0 hsemi]
      simp
    rw [hfind2]
    unfold pySlice sliceIndex
    dsimp only
    rw [if_neg (by omega : ¬ ((i : Int) < 0))]
    rw [if_neg (by omega :
      ¬ (((i + ((v.data.drop i).takeWhile (fun c => c != ';')).length : Nat) : Int) < 0))]
    rw [Int.toNat_natCast, Int.toNat_natCast]
    have htl : ((v.data.drop i).takeWhile (fun c => c != ';')).length ≤ v.data.length - i := by
      have := length_takeWhile_le (fun c => c != ';') (v.data.drop i)
      rw [List.length_drop] at this
      exact this
    rw [min_eq_left (by omega : i ≤ v.data.length)]
    rw [min_eq_left (by omega :
      i + ((v.data.drop i).takeWhile (fun c => c != ';')).length ≤ v.data.length)]
    unfold claimedExtract
    congr 1
    rw [← List.take_drop]
    exact take_length_takeWhile _ _

/-- C2 witness: the spec's example value, whose first JSESSIONID occurrence
is at index 5 and is followed by a semicolon, extracts to exactly
JSESSIONID=abc123. -/
theorem extract_session_cookie_spec_witness :
    hasSubAt ("...; JSESSIONID=abc123; Path=/; ...").data ("JSESSIONID").data 5 = true ∧
    extract_session_cookie "...; JSESSIONID=abc123; Path=/; ..." = "JSESSIONID=abc123" := by
  refine ⟨by decide, ?_⟩
  have h := extract_session_cookie_spec "...; JSESSIONID=abc123; Path=/; ..." 5
    (by decide) (by decide)
  rw [h]
  decide

end Archiva
